import Mathlib

set_option maxRecDepth 100000

/-!
Verification development for the Wake-On-Lan console application
(src/main.cpp).  Strings are modelled as `List Char` (the program uses
`std::wstring` / `wchar_t`; comparisons such as `ch >= L'0'` are
code-unit comparisons, so they are modelled through `Char.toNat`:
L'0' = 48, L'9' = 57, L'A' = 65, L'F' = 70, L'a' = 97, L'f' = 102,
L'-' = 45, L'.' = 46).  Machine integers are modelled as `Nat`; the
only place overflow matters is `wcstoul` (32-bit `unsigned long` on
Windows), modelled with an explicit `ULONG_MAX` bound.
-/

/-- The `WolErrorCode` enumeration of src/main.cpp (underlying type
`std::uint8_t`, enumerator values 0..15 in declaration order). -/
inductive WolErrorCode : Type
  | Success
  | FailedToGetExecutionPath
  | InvalidExecutionPath
  | ConfigFileNotFound
  | CannotAccessConfigFile
  | FailedToReadMacAddress
  | InvalidMacAddress
  | FailedToReadBroadcastIp
  | InvalidBroadcastIp
  | FailedToReadPort
  | InvalidPort
  | WinsockInitializationFailed
  | SocketCreationFailed
  | BroadcastSetupFailed
  | PacketSendFailed
  | UnexpectedException
deriving DecidableEq, Repr

/-- The numeric value of each enumerator (implicit values 0..15 of the
C++ `enum class WolErrorCode : std::uint8_t`). -/
def wolErrorCodeToNat : WolErrorCode → Nat
  | .Success => 0
  | .FailedToGetExecutionPath => 1
  | .InvalidExecutionPath => 2
  | .ConfigFileNotFound => 3
  | .CannotAccessConfigFile => 4
  | .FailedToReadMacAddress => 5
  | .InvalidMacAddress => 6
  | .FailedToReadBroadcastIp => 7
  | .InvalidBroadcastIp => 8
  | .FailedToReadPort => 9
  | .InvalidPort => 10
  | .WinsockInitializationFailed => 11
  | .SocketCreationFailed => 12
  | .BroadcastSetupFailed => 13
  | .PacketSendFailed => 14
  | .UnexpectedException => 15

/-- `WolErrorCodeToString` modelled on the underlying integer value, so
that the `switch` statement's fallback branch (`assert(false); return
{L""};`) is visible: the `Bool` component records whether the fallback
(the assert branch) was taken.  The strings are the wide-string
literals of the source; `CONFIG_FILE_NAME` is `L"config.ini"`. -/
def wolErrorCodeToStringSwitch (n : Nat) : List Char × Bool :=
  if n = 0 then ("성공\n".toList, false)
  else if n = 1 then ("실행 파일 경로를 얻을 수 없음\n".toList, false)
  else if n = 2 then ("유효하지 않은 실행 파일 경로\n".toList, false)
  else if n = 3 then ("config.ini파일을 찾을 수 없음\n".toList, false)
  else if n = 4 then ("config.ini파일에 접근 권한이 없음\n".toList, false)
  else if n = 5 then ("Config 파일에서 Mac 주소를 읽을 수 없음\n".toList, false)
  else if n = 6 then ("잘못된 MAC 주소\n".toList, false)
  else if n = 7 then ("Config 파일에서 브로드캐스트 주소를 읽을 수 없음\n".toList, false)
  else if n = 8 then ("잘못된 브로드캐스트 주소\n".toList, false)
  else if n = 9 then ("Config 파일에서 포트 읽을 수 없음\n".toList, false)
  else if n = 10 then ("잘못된 포트 번호\n".toList, false)
  else if n = 11 then ("WinSock 초기화 실패\n".toList, false)
  else if n = 12 then ("소켓 생성 실패\n".toList, false)
  else if n = 13 then ("브로드캐스트 설정 실패\n".toList, false)
  else if n = 14 then ("패킷 전송 실패\n".toList, false)
  else if n = 15 then ("예기치 않은 오류 발생\n".toList, false)
  else ([], true)

/-- `(ch >= L'0' && ch <= L'9') || (ch >= L'A' && ch <= L'F') ||
(ch >= L'a' && ch <= L'f')` — the hexadecimal-character test of
`WolConfig::IsValidMacAddress` (also the digit set consumed by
`swscanf_s`'s `%x`). -/
def isHexDigitW (c : Char) : Bool :=
  decide ((48 ≤ c.toNat ∧ c.toNat ≤ 57) ∨ (65 ≤ c.toNat ∧ c.toNat ≤ 70) ∨
    (97 ≤ c.toNat ∧ c.toNat ≤ 102))

/-- `iswdigit` in the C locale: exactly the ASCII digits L'0'..L'9'. -/
def isWDigit (c : Char) : Bool :=
  decide (48 ≤ c.toNat ∧ c.toNat ≤ 57)

/-- `iswspace` in the C locale: space (32) and the control characters
9..13 (tab, newline, vertical tab, form feed, carriage return). -/
def isSpaceW (c : Char) : Bool :=
  decide (c.toNat = 32 ∨ (9 ≤ c.toNat ∧ c.toNat ≤ 13))

/-- Numeric value of a hexadecimal digit character (the value a `%x`
conversion assigns to one digit); 0 on a non-digit. -/
def hexVal (c : Char) : Nat :=
  if 48 ≤ c.toNat ∧ c.toNat ≤ 57 then c.toNat - 48
  else if 65 ≤ c.toNat ∧ c.toNat ≤ 70 then c.toNat - 55
  else if 97 ≤ c.toNat ∧ c.toNat ≤ 102 then c.toNat - 87
  else 0

/-- Decimal value of a digit string (the value `wcstol`/`wcstoul`
compute from the consumed digit sequence). -/
def decVal (p : List Char) : Nat :=
  p.foldl (fun acc c => acc * 10 + (c.toNat - 48)) 0

/-- The separator-position test of `WolConfig::IsValidMacAddress`:
`MAC_ADDRESS_SEPARATOR_INDICES{2, 5, 8, 11, 14}`. -/
def macSepIndex (i : Nat) : Bool :=
  i == 2 || i == 5 || i == 8 || i == 11 || i == 14

/-- The character loop of `WolConfig::IsValidMacAddress`: position `i`
must hold L'-' when `i` is a separator index and a hex digit
otherwise; the first violation returns `InvalidMacAddress`. -/
def macCharLoop : List Char → Nat → WolErrorCode
  | [], _ => .Success
  | c :: rest, i =>
    if macSepIndex i then
      if c = '-' then macCharLoop rest (i + 1) else .InvalidMacAddress
    else
      if isHexDigitW c then macCharLoop rest (i + 1) else .InvalidMacAddress

/-- `WolConfig::IsValidMacAddress`: rejects the empty string and
strings longer than `MAC_ADDRESS_LENGTH` (= 18), then runs the
per-position character loop. -/
def isValidMacAddress (s : List Char) : WolErrorCode :=
  if s = [] ∨ 18 < s.length then .InvalidMacAddress
  else macCharLoop s 0

/-- The ValidatedMacString format of the specification: the regular
expression `^[0-9A-Fa-f]\x7b2\x7d(-[0-9A-Fa-f]\x7b2\x7d)\x7b5\x7d$`,
i.e. exactly 17 characters `XX-XX-XX-XX-XX-XX` with `X` a hex digit.
This is a specification-side definition, used to compare the
implemented validator against the spec's characterization. -/
def macFormatB : List Char → Bool
  | [a0, a1, s1, b0, b1, s2, c0, c1, s3, d0, d1, s4, e0, e1, s5, f0, f1] =>
    isHexDigitW a0 && isHexDigitW a1 && (s1 == '-') &&
    isHexDigitW b0 && isHexDigitW b1 && (s2 == '-') &&
    isHexDigitW c0 && isHexDigitW c1 && (s3 == '-') &&
    isHexDigitW d0 && isHexDigitW d1 && (s4 == '-') &&
    isHexDigitW e0 && isHexDigitW e1 && (s5 == '-') &&
    isHexDigitW f0 && isHexDigitW f1
  | _ => false

/-- `WolConfig::IsValidateIpOctet`.  After the length, digit and
leading-zero checks the source converts with `wcstol`; on an all-digit
string of length 1..3 the conversion consumes every character, sets no
`errno`, and `endPtr` lands on the terminator, so the `EINVAL/ERANGE`
and `endPtr` guards cannot fire and only the 0..255 range check
remains (the value is the decimal value of the digits). -/
def isValidateIpOctet (octet : List Char) : WolErrorCode :=
  if octet = [] ∨ 3 < octet.length then .InvalidBroadcastIp
  else if !(octet.all isWDigit) then .InvalidBroadcastIp
  else if 1 < octet.length ∧ octet.headD ' ' = '0' then .InvalidBroadcastIp
  else if 255 < decVal octet then .InvalidBroadcastIp
  else .Success

/-- The scanning loop of `WolConfig::IsValidBroadcastIpAddress`:
`acc` is the current octet (the substring since the last dot), `d`
the number of dots seen so far.  At a dot or at the end of the string
the octet is validated; each dot increments the count, which must
never exceed 3 and must equal 3 at the end. -/
def ipLoop : List Char → List Char → Nat → WolErrorCode
  | [], acc, d =>
    match isValidateIpOctet acc with
    | .Success =>
      if 3 < d then .InvalidBroadcastIp
      else if d = 3 then .Success
      else .InvalidBroadcastIp
    | e => e
  | c :: rest, acc, d =>
    if c = '.' then
      match isValidateIpOctet acc with
      | .Success =>
        if 3 < d + 1 then .InvalidBroadcastIp
        else ipLoop rest [] (d + 1)
      | e => e
    else ipLoop rest (acc ++ [c]) d

/-- `WolConfig::IsValidBroadcastIpAddress`. -/
def isValidBroadcastIpAddress (s : List Char) : WolErrorCode :=
  ipLoop s [] 0

/-- Specification-side: split a string at the dots (the "octets" the
spec speaks about).  `splitDots "1.2" = [[1],[2]]`, and empty octets
appear for consecutive, leading or trailing dots. -/
def splitDots : List Char → List (List Char)
  | [] => [[]]
  | c :: rest =>
    if c = '.' then [] :: splitDots rest
    else
      match splitDots rest with
      | p :: ps => (c :: p) :: ps
      | [] => [[c]]

/-- Specification-side: the canonical decimal rendering of an integer
octet value (1..3 digits, no redundant leading zero). -/
def canonOctet (n : Nat) : List Char :=
  if n < 10 then [Char.ofNat (48 + n)]
  else if n < 100 then [Char.ofNat (48 + n / 10), Char.ofNat (48 + n % 10)]
  else [Char.ofNat (48 + n / 100), Char.ofNat (48 + n / 10 % 10), Char.ofNat (48 + n % 10)]

/-- Specification-side: the canonical decimal-dotted rendering of a
4-tuple of octet values. -/
def canonIp (a b c d : Nat) : List Char :=
  canonOctet a ++ '.' :: (canonOctet b ++ '.' :: (canonOctet c ++ '.' :: canonOctet d))

deriving instance DecidableEq for Except

/-- `ULONG_MAX` for the 32-bit `unsigned long` of Windows. -/
def ULONG_MAX : Nat := 4294967295

/-- The digit-consuming core of `wcstoul(.., .., 10)`: consume a
maximal run of decimal digits, returning the accumulated value, the
number of digits consumed and the unconsumed remainder. -/
def parseDecDigits : List Char → Nat → Nat → Nat × Nat × List Char
  | c :: rest, acc, k =>
    if isWDigit c then parseDecDigits rest (acc * 10 + (c.toNat - 48)) (k + 1)
    else (acc, k, c :: rest)
  | [], acc, k => (acc, k, [])

/-- Result of a `wcstoul` call: the returned value, whether `errno`
was set to `ERANGE`, whether any characters were converted (i.e.
`endPtr != nptr`), and the characters after `endPtr`. -/
structure Wcstoul10Result : Type where
  value : Nat
  erange : Bool
  consumedDigits : Bool
  rest : List Char
deriving DecidableEq, Repr

/-- `wcstoul(nptr, &endPtr, 10)` after the whitespace/sign prologue:
`orig` is the full input (where `endPtr` points when nothing was
converted).  If the magnitude exceeds `ULONG_MAX` the call returns
`ULONG_MAX` and sets `ERANGE`; a leading minus sign negates the value
modulo 2^32. -/
def wcstoulCore (orig digits : List Char) (neg : Bool) : Wcstoul10Result :=
  if (parseDecDigits digits 0 0).2.1 = 0 then ⟨0, false, false, orig⟩
  else if ULONG_MAX < (parseDecDigits digits 0 0).1 then
    ⟨ULONG_MAX, true, true, (parseDecDigits digits 0 0).2.2⟩
  else if neg then
    ⟨(4294967296 - (parseDecDigits digits 0 0).1 % 4294967296) % 4294967296, false, true,
      (parseDecDigits digits 0 0).2.2⟩
  else ⟨(parseDecDigits digits 0 0).1, false, true, (parseDecDigits digits 0 0).2.2⟩

/-- `wcstoul(s, &endPtr, 10)`: skip `iswspace` characters, accept one
optional `+`/`-` sign, then convert a maximal decimal-digit run. -/
def wcstoul10 (s : List Char) : Wcstoul10Result :=
  match s.dropWhile isSpaceW with
  | '+' :: r => wcstoulCore s r false
  | '-' :: r => wcstoulCore s r true
  | r => wcstoulCore s r false

/-- The port-handling block of `WolConfig::LoadFromIni` (lines
422..453): the `wcslen == 0` check, the `wcstoul` conversion with its
`ERANGE`, no-conversion and trailing-garbage guards, and the
`port == 0 || port > UINT16_MAX` range check; every failure returns
`InvalidPort`, success stores the port. -/
def loadPort (s : List Char) : Except WolErrorCode Nat :=
  if s.length = 0 then .error .InvalidPort
  else if (wcstoul10 s).erange = true then .error .InvalidPort
  else if (wcstoul10 s).consumedDigits = false ∨ (wcstoul10 s).rest ≠ [] then .error .InvalidPort
  else if (wcstoul10 s).value = 0 ∨ 65535 < (wcstoul10 s).value then .error .InvalidPort
  else .ok (wcstoul10 s).value

/-- Maximal hex-digit run of a `%x` conversion (the loop that
accumulates `acc * 16 + digit`). -/
def hexRun : List Char → Nat → Nat × List Char
  | [], acc => (acc, [])
  | c :: rest, acc =>
    if isHexDigitW c then hexRun rest (acc * 16 + hexVal c) else (acc, c :: rest)

/-- One `%x` conversion of `swscanf_s`: fails (matching failure) when
the input does not start with a hex digit, otherwise consumes the
maximal hex-digit run.  (The whitespace-skip and `0x`/sign forms of
`%x` cannot occur in input that passed `IsValidMacAddress`, the
documented precondition of `ParseMacAddress`.) -/
def scanHex : List Char → Option (Nat × List Char)
  | [] => none
  | c :: rest => if isHexDigitW c then some (hexRun (c :: rest) 0) else none

/-- The literal `-` between two `%x` directives of the format string
`L"%x-%x-%x-%x-%x-%x"`. -/
def expectDash : List Char → Option (List Char)
  | '-' :: rest => some rest
  | _ => none

/-- `WakeOnLanSender::ParseMacAddress`: `swscanf_s` with format
`L"%x-%x-%x-%x-%x-%x"` into six `unsigned int`s, then
`static_cast<std::byte>` (truncation mod 256) of each.  `none` models
`scanResult != 6`, the case the source guards with `assert(scanResult
== 6)`. -/
def parseMacAddress (s : List Char) : Option (List Nat) := do
  let (v0, r0) ← scanHex s
  let r0d ← expectDash r0
  let (v1, r1) ← scanHex r0d
  let r1d ← expectDash r1
  let (v2, r2) ← scanHex r1d
  let r2d ← expectDash r2
  let (v3, r3) ← scanHex r2d
  let r3d ← expectDash r3
  let (v4, r4) ← scanHex r3d
  let r4d ← expectDash r4
  let (v5, _) ← scanHex r4d
  pure [v0 % 256, v1 % 256, v2 % 256, v3 % 256, v4 % 256, v5 % 256]

/-- `WakeOnLanSender::CreateMagicPacket`: first `headerSize` (= 6)
bytes are `0xFF`; then the MAC bytes are written `macRepeatCount`
(= 16) times at offsets `6 + repeat * 6`. -/
def createMagicPacket (macBytes : List Nat) : List Nat :=
  List.replicate 6 255 ++ (List.replicate 16 macBytes).flatten

/-- The assertion at the top of
`WakeOnLanSender::SetupBroadcastAddress`:
`assert(broadcastAddress.empty() == false)` and
`assert(port != 0 && port < UINT16_MAX)`. -/
def setupBroadcastAddressAssert (broadcastAddress : List Char) (port : Nat) : Bool :=
  decide (broadcastAddress ≠ []) && (decide (port ≠ 0) && decide (port < 65535))

/-- The three data members of `WolConfig` (`mMacAddress`,
`mBroadcastIp`, `mPort`), default-constructed as two empty strings
and port 0. -/
structure WolConfigState : Type where
  mMacAddress : List Char
  mBroadcastIp : List Char
  mPort : Nat
deriving DecidableEq, Repr

/-- `WolConfig::GetMacAddress`. -/
def getMacAddress (c : WolConfigState) : List Char := c.mMacAddress

/-- `WolConfig::GetBroadcastIp`. -/
def getBroadcastIp (c : WolConfigState) : List Char := c.mBroadcastIp

/-- `WolConfig::GetPort`. -/
def getPort (c : WolConfigState) : Nat := c.mPort

/-- `WolConfig::IsConfigurationValid`: MAC check first, then the
broadcast-IP check (the port was already validated while reading the
INI file). -/
def isConfigurationValid (c : WolConfigState) : WolErrorCode :=
  match isValidMacAddress c.mMacAddress with
  | .Success => isValidBroadcastIpAddress c.mBroadcastIp
  | e => e

/-- The three `GetPrivateProfileStringW` reads of
`WolConfig::LoadFromIni`, abstracted: `macValue` and `portValue` are
the strings the reads place in the buffer (the API returns 0, i.e. the
read "fails", exactly when the key is missing or its value is empty,
which collapses to an empty string here); `BroadcastIp` is read with
default `L"255.255.255.255"`, so a missing key (`none`) yields the
default while a present-but-empty value yields the empty string. -/
structure IniInput : Type where
  macValue : List Char
  ipValue : Option (List Char)
  portValue : List Char

/-- The `BroadcastIp` default of `LoadFromIni`. -/
def defaultBroadcastIp : List Char := "255.255.255.255".toList

/-- `WolConfig::LoadFromIni` from the point where the config file was
found, as a transformer of the `WolConfig` state: read MAC (error =
`FailedToReadMacAddress`, state untouched), store it; read broadcast
IP (default applied), store it; read and validate the port, store it;
finally `IsConfigurationValid` — and on ITS failure reset all three
members to their defaults before returning. -/
def loadFromIniModel (ini : IniInput) (st : WolConfigState) : WolErrorCode × WolConfigState :=
  if ini.macValue = [] then (.FailedToReadMacAddress, st)
  else
    let st1 : WolConfigState := { st with mMacAddress := ini.macValue }
    let ipVal := ini.ipValue.getD defaultBroadcastIp
    if ipVal = [] then (.FailedToReadBroadcastIp, st1)
    else
      let st2 : WolConfigState := { st1 with mBroadcastIp := ipVal }
      if ini.portValue = [] then (.FailedToReadPort, st2)
      else
        match loadPort ini.portValue with
        | .error e => (e, st2)
        | .ok p =>
          let st3 : WolConfigState := { st2 with mPort := p }
          match isConfigurationValid st3 with
          | .Success => (.Success, st3)
          | e => (e, ⟨[], [], 0⟩)

/-- Observable steps of `WakeOnLanSender::SendMagicPacket` and its
callees, in program order: MAC parsing and packet construction (pure),
then `WSAStartup`, `socket()`, `WSAIoctl(SIO_UDP_CONNRESET)`,
`setsockopt(SO_BROADCAST)`, `WideCharToMultiByte`, `inet_pton`,
`sendto`, and the RAII releases `closesocket` / `WSACleanup`. -/
inductive NetEvent : Type
  | parseMac
  | buildPacket
  | wsaStartup
  | socketCreate
  | wsaIoctl
  | setBroadcastOpt
  | addrConvert
  | inetPton
  | sendto
  | socketClose
  | wsaCleanup
deriving DecidableEq, Repr

/-- Outcomes of the external calls `SendMagicPacket` makes (the
environment the program runs against). -/
structure NetEnv : Type where
  wsaOk : Bool
  socketOk : Bool
  broadcastOptOk : Bool
  convOk : Bool
  ptonOk : Bool
  sendOk : Bool
deriving DecidableEq, Repr

/-- `WakeOnLanSender::SendMagicPacket` as a trace model: the result
code and the ordered list of observable steps.  `ParseMacAddress` and
`CreateMagicPacket` run unconditionally first; `WSAStartup` failure
returns before any socket exists (and, because `WsaGuard`'s destructor
only decrements the never-incremented reference count, without
`WSACleanup`); after `socket()` succeeds every path closes the socket
and cleans up WinSock. -/
def sendMagicPacketModel (env : NetEnv) (macAddress broadcastAddress : List Char)
    (port : Nat) : WolErrorCode × List NetEvent :=
  let _macBytes := (parseMacAddress macAddress).getD (List.replicate 6 0)
  let _packet := createMagicPacket _macBytes
  let _assertOk := setupBroadcastAddressAssert broadcastAddress port
  let evs := [NetEvent.parseMac, NetEvent.buildPacket, NetEvent.wsaStartup]
  if env.wsaOk = false then (.WinsockInitializationFailed, evs)
  else
    let evs := evs ++ [NetEvent.socketCreate]
    if env.socketOk = false then (.SocketCreationFailed, evs ++ [NetEvent.wsaCleanup])
    else
      let evs := evs ++ [NetEvent.wsaIoctl, NetEvent.setBroadcastOpt]
      if env.broadcastOptOk = false then
        (.BroadcastSetupFailed, evs ++ [NetEvent.socketClose, NetEvent.wsaCleanup])
      else
        let evs := evs ++ [NetEvent.addrConvert]
        if env.convOk = false then
          (.BroadcastSetupFailed, evs ++ [NetEvent.socketClose, NetEvent.wsaCleanup])
        else
          let evs := evs ++ [NetEvent.inetPton]
          if env.ptonOk = false then
            (.BroadcastSetupFailed, evs ++ [NetEvent.socketClose, NetEvent.wsaCleanup])
          else
            let evs := evs ++ [NetEvent.sendto]
            if env.sendOk = false then
              (.PacketSendFailed, evs ++ [NetEvent.socketClose, NetEvent.wsaCleanup])
            else (.Success, evs ++ [NetEvent.socketClose, NetEvent.wsaCleanup])

/-- `main` from `LoadFromIni` on: a failed configuration load returns
before a `WakeOnLanSender` exists, so no network step happens at all;
otherwise `SendMagicPacket` runs on the loaded configuration. -/
def mainModel (ini : IniInput) (env : NetEnv) : WolErrorCode × List NetEvent :=
  match loadFromIniModel ini ⟨[], [], 0⟩ with
  | (code, st) =>
    if code = .Success then
      sendMagicPacketModel env (getMacAddress st) (getBroadcastIp st) (getPort st)
    else (code, [])

/-- The events of a trace strictly before the first occurrence of
`e`. -/
def eventsBefore (e : NetEvent) (evs : List NetEvent) : List NetEvent :=
  evs.takeWhile (fun x => decide (x ≠ e))


/-- The MAC character loop can only answer success or
`InvalidMacAddress`. -/
theorem macCharLoop_cases (s : List Char) :
    ∀ i, macCharLoop s i = .Success ∨ macCharLoop s i = .InvalidMacAddress := by
  induction s with
  | nil => intro i; exact Or.inl rfl
  | cons c rest ih =>
    intro i
    unfold macCharLoop
    split
    · split
      · exact ih (i + 1)
      · exact Or.inr rfl
    · split
      · exact ih (i + 1)
      · exact Or.inr rfl

/-- The MAC validator can only answer success or `InvalidMacAddress`. -/
theorem isValidMacAddress_cases (s : List Char) :
    isValidMacAddress s = .Success ∨ isValidMacAddress s = .InvalidMacAddress := by
  unfold isValidMacAddress
  split
  · exact Or.inr rfl
  · exact macCharLoop_cases s 0

/-- The octet validator can only answer success or
`InvalidBroadcastIp`. -/
theorem isValidateIpOctet_cases (p : List Char) :
    isValidateIpOctet p = .Success ∨ isValidateIpOctet p = .InvalidBroadcastIp := by
  unfold isValidateIpOctet
  split
  · exact Or.inr rfl
  split
  · exact Or.inr rfl
  split
  · exact Or.inr rfl
  split
  · exact Or.inr rfl
  · exact Or.inl rfl

/-- The IP scanning loop can only answer success or
`InvalidBroadcastIp`. -/
theorem ipLoop_cases (s : List Char) :
    ∀ acc d, ipLoop s acc d = .Success ∨ ipLoop s acc d = .InvalidBroadcastIp := by
  induction s with
  | nil =>
    intro acc d
    unfold ipLoop
    rcases isValidateIpOctet_cases acc with h | h <;> simp only [h]
    · split
      · exact Or.inr rfl
      split
      · exact Or.inl rfl
      · exact Or.inr rfl
    · exact Or.inr trivial
  | cons c rest ih =>
    intro acc d
    unfold ipLoop
    split
    · rcases isValidateIpOctet_cases acc with h | h <;> simp only [h]
      · split
        · exact Or.inr rfl
        · exact ih [] (d + 1)
      · exact Or.inr trivial
    · exact ih (acc ++ [c]) d

/-- Every failure of the port-reading block is `InvalidPort`. -/
theorem loadPort_cases (s : List Char) :
    (∃ p, loadPort s = .ok p) ∨ loadPort s = .error .InvalidPort := by
  unfold loadPort
  split
  · exact Or.inr rfl
  split
  · exact Or.inr rfl
  split
  · exact Or.inr rfl
  split
  · exact Or.inr rfl
  · exact Or.inl ⟨_, rfl⟩

/-- A string accepted by the spec's regex decomposes into twelve hex
digits with hyphens at positions 2, 5, 8, 11 and 14. -/
theorem macFormat_shape (s : List Char) (hf : macFormatB s = true) :
    ∃ a0 a1 b0 b1 c0 c1 d0 d1 e0 e1 f0 f1 : Char,
      s = [a0, a1, '-', b0, b1, '-', c0, c1, '-', d0, d1, '-', e0, e1, '-', f0, f1] ∧
      isHexDigitW a0 = true ∧ isHexDigitW a1 = true ∧
      isHexDigitW b0 = true ∧ isHexDigitW b1 = true ∧
      isHexDigitW c0 = true ∧ isHexDigitW c1 = true ∧
      isHexDigitW d0 = true ∧ isHexDigitW d1 = true ∧
      isHexDigitW e0 = true ∧ isHexDigitW e1 = true ∧
      isHexDigitW f0 = true ∧ isHexDigitW f1 = true := by
  rcases s with _ | ⟨a0, s⟩
  · exact nomatch hf
  rcases s with _ | ⟨a1, s⟩
  · exact nomatch hf
  rcases s with _ | ⟨s1, s⟩
  · exact nomatch hf
  rcases s with _ | ⟨b0, s⟩
  · exact nomatch hf
  rcases s with _ | ⟨b1, s⟩
  · exact nomatch hf
  rcases s with _ | ⟨s2, s⟩
  · exact nomatch hf
  rcases s with _ | ⟨c0, s⟩
  · exact nomatch hf
  rcases s with _ | ⟨c1, s⟩
  · exact nomatch hf
  rcases s with _ | ⟨s3, s⟩
  · exact nomatch hf
  rcases s with _ | ⟨d0, s⟩
  · exact nomatch hf
  rcases s with _ | ⟨d1, s⟩
  · exact nomatch hf
  rcases s with _ | ⟨s4, s⟩
  · exact nomatch hf
  rcases s with _ | ⟨e0, s⟩
  · exact nomatch hf
  rcases s with _ | ⟨e1, s⟩
  · exact nomatch hf
  rcases s with _ | ⟨s5, s⟩
  · exact nomatch hf
  rcases s with _ | ⟨f0, s⟩
  · exact nomatch hf
  rcases s with _ | ⟨f1, s⟩
  · exact nomatch hf
  rcases s with _ | ⟨x, s⟩
  · simp only [macFormatB, Bool.and_eq_true, beq_iff_eq] at hf
    obtain ⟨⟨⟨⟨⟨⟨⟨⟨⟨⟨⟨⟨⟨⟨⟨⟨ha0, ha1⟩, hs1⟩, hb0⟩, hb1⟩, hs2⟩, hc0⟩, hc1⟩,
      hs3⟩, hd0⟩, hd1⟩, hs4⟩, he0⟩, he1⟩, hs5⟩, hf0⟩, hf1⟩ := hf
    subst hs1; subst hs2; subst hs3; subst hs4; subst hs5
    exact ⟨a0, a1, b0, b1, c0, c1, d0, d1, e0, e1, f0, f1, rfl,
      ha0, ha1, hb0, hb1, hc0, hc1, hd0, hd1, he0, he1, hf0, hf1⟩
  · exact nomatch hf

/-- Every string in the spec's regex format passes
`IsValidMacAddress`. -/
theorem macFormat_valid (s : List Char) (hf : macFormatB s = true) :
    isValidMacAddress s = .Success := by
  obtain ⟨a0, a1, b0, b1, c0, c1, d0, d1, e0, e1, f0, f1, rfl, ha0, ha1, hb0, hb1,
    hc0, hc1, hd0, hd1, he0, he1, hf0, hf1⟩ := macFormat_shape s hf
  simp [isValidMacAddress, macCharLoop, macSepIndex,
    ha0, ha1, hb0, hb1, hc0, hc1, hd0, hd1, he0, he1, hf0, hf1]

/-- Claim C9: the error-code-to-string mapping is exhaustive — for
every declared `WolErrorCode` enumerator the `switch` of
`WolErrorCodeToString` produces a non-empty string and never reaches
the `assert(false); return \x7bL""\x7d;` fallback branch. -/
theorem claim_C9_error_string_exhaustive :
    ∀ e : WolErrorCode,
      (wolErrorCodeToStringSwitch (wolErrorCodeToNat e)).2 = false ∧
      (wolErrorCodeToStringSwitch (wolErrorCodeToNat e)).1 ≠ [] := by
  intro e
  cases e <;> exact ⟨by decide, by decide⟩

/-- Claim C6: the claim says every validated port in [1, 65535]
satisfies the assertions of `SetupBroadcastAddress`; but the source
asserts `port != 0 && port < UINT16_MAX`, which is FALSE at the
validated port 65535 (`"65535"` passes the port validation of
`LoadFromIni`, yet `65535 < 65535` fails).  The function's own SAL
annotation `_In_range_(1, 65535)` and its documentation admit 65535,
so the assertion is an off-by-one bug of the code. -/
theorem claim_C6_setup_assert_off_by_one :
    loadPort ("65535".toList) = .ok 65535 ∧
    setupBroadcastAddressAssert defaultBroadcastIp 65535 = false ∧
    setupBroadcastAddressAssert defaultBroadcastIp 65534 = true ∧
    setupBroadcastAddressAssert defaultBroadcastIp 1 = true := by
  exact ⟨by decide, by decide, by decide, by decide⟩

/-- Claim C5 (counterexample): a MAC separator-position mismatch
(L':' at position 2) and an invalid hex character (L'G' at position 1)
yield the SAME error value `InvalidMacAddress`, so a caller cannot
tell the two causes apart from the returned result, contrary to the
claim. -/
theorem claim_C5_counterexample :
    isValidMacAddress ("00:11-22-AA-BB-CC".toList) =
      isValidMacAddress ("0G-11-22-AA-BB-CC".toList) ∧
    isValidMacAddress ("00:11-22-AA-BB-CC".toList) = .InvalidMacAddress ∧
    isValidMacAddress ("0G-11-22-AA-BB-CC".toList) = .InvalidMacAddress := by
  exact ⟨by decide, by decide, by decide⟩

/-- Claim C5 (amended): validation failures are distinguishable only
at the family level: every MAC-validation failure is
`InvalidMacAddress`, every broadcast-IP failure is
`InvalidBroadcastIp`, every port failure is `InvalidPort`; these three
codes are pairwise distinct and distinct from `Success`, but
sub-causes within one family are not encoded in the returned value
(they are only printed to stderr). -/
theorem claim_C5_amended_family_level_errors :
    (∀ s, isValidMacAddress s = .Success ∨ isValidMacAddress s = .InvalidMacAddress) ∧
    (∀ s, isValidBroadcastIpAddress s = .Success ∨
      isValidBroadcastIpAddress s = .InvalidBroadcastIp) ∧
    (∀ s, (∃ p, loadPort s = .ok p) ∨ loadPort s = .error .InvalidPort) ∧
    (WolErrorCode.InvalidMacAddress ≠ .InvalidBroadcastIp ∧
     WolErrorCode.InvalidMacAddress ≠ .InvalidPort ∧
     WolErrorCode.InvalidBroadcastIp ≠ .InvalidPort ∧
     WolErrorCode.InvalidMacAddress ≠ .Success ∧
     WolErrorCode.InvalidBroadcastIp ≠ .Success ∧
     WolErrorCode.InvalidPort ≠ .Success) :=
  ⟨isValidMacAddress_cases, fun s => ipLoop_cases s [] 0, loadPort_cases,
    by decide, by decide, by decide, by decide, by decide, by decide⟩

/-- Claim C2: the claim says `IsValidMacAddress` succeeds exactly on
the regex `^[0-9A-Fa-f]\x7b2\x7d(-[0-9A-Fa-f]\x7b2\x7d)\x7b5\x7d$`.
The "regex implies success" direction holds (last conjunct), but the
converse fails: the validator accepts the 1-character string `"0"`
and the 18-character string `"00-11-22-AA-BB-CC7"`, neither of which
matches the regex.  On `"0"` the subsequent `swscanf_s` parses only
one of the six groups (modelled by `parseMacAddress = none`), so the
source's own `assert(scanResult == 6)` in `ParseMacAddress` is
violated — the validator, not the claim, is wrong (the source comment
says `IsValidMacAddress` must be strengthened if parsing can fail). -/
theorem claim_C2_mac_validation_not_regex :
    isValidMacAddress ("0".toList) = .Success ∧
    macFormatB ("0".toList) = false ∧
    parseMacAddress ("0".toList) = none ∧
    isValidMacAddress ("00-11-22-AA-BB-CC7".toList) = .Success ∧
    ("00-11-22-AA-BB-CC7".toList).length = 18 ∧
    isValidMacAddress [] = .InvalidMacAddress ∧
    (∀ s, macFormatB s = true → isValidMacAddress s = .Success) :=
  ⟨by decide, by decide, by decide, by decide, by decide, by decide, macFormat_valid⟩

/-- Witness for claim C2's universally quantified conjunct, at the
concrete regex-valid string "A0-36-BC-BB-EB-CC". -/
theorem claim_C2_witness :
    isValidMacAddress ("A0-36-BC-BB-EB-CC".toList) = .Success :=
  claim_C2_mac_validation_not_regex.2.2.2.2.2.2 ("A0-36-BC-BB-EB-CC".toList) (by decide)

/-- Claim C10: if the final `IsConfigurationValid` check of
`LoadFromIni` fails, all three members are reset to their defaults
(empty MAC, empty IP, port 0) before the error is returned; an error
raised earlier (an invalid port string) returns with the already
loaded MAC/IP values still stored and the port member untouched. -/
theorem claim_C10_reset_on_final_validation_failure :
    (∀ (ini : IniInput) (st : WolConfigState) (p : Nat),
      ini.macValue ≠ [] →
      ini.ipValue.getD defaultBroadcastIp ≠ [] →
      ini.portValue ≠ [] →
      loadPort ini.portValue = .ok p →
      isConfigurationValid ⟨ini.macValue, ini.ipValue.getD defaultBroadcastIp, p⟩ ≠ .Success →
      loadFromIniModel ini st =
        (isConfigurationValid ⟨ini.macValue, ini.ipValue.getD defaultBroadcastIp, p⟩,
          ⟨[], [], 0⟩) ∧
      getMacAddress (loadFromIniModel ini st).2 = [] ∧
      getBroadcastIp (loadFromIniModel ini st).2 = [] ∧
      getPort (loadFromIniModel ini st).2 = 0) ∧
    (∀ (ini : IniInput) (st : WolConfigState) (e : WolErrorCode),
      ini.macValue ≠ [] →
      ini.ipValue.getD defaultBroadcastIp ≠ [] →
      ini.portValue ≠ [] →
      loadPort ini.portValue = .error e →
      loadFromIniModel ini st =
        (e, ⟨ini.macValue, ini.ipValue.getD defaultBroadcastIp, st.mPort⟩)) := by
  constructor
  · intro ini st p h1 h2 h3 h4 h5
    have hload : loadFromIniModel ini st =
        (isConfigurationValid ⟨ini.macValue, ini.ipValue.getD defaultBroadcastIp, p⟩,
          ⟨[], [], 0⟩) := by
      unfold loadFromIniModel
      rw [if_neg h1, if_neg h2, if_neg h3, h4]
      show (match isConfigurationValid
          (⟨ini.macValue, ini.ipValue.getD defaultBroadcastIp, p⟩ : WolConfigState) with
        | WolErrorCode.Success =>
          ((WolErrorCode.Success,
            (⟨ini.macValue, ini.ipValue.getD defaultBroadcastIp, p⟩ : WolConfigState)) :
              WolErrorCode × WolConfigState)
        | e => (e, (⟨[], [], 0⟩ : WolConfigState))) = _
      cases hcv : isConfigurationValid
        (⟨ini.macValue, ini.ipValue.getD defaultBroadcastIp, p⟩ : WolConfigState)
      case Success => exact absurd hcv h5
      all_goals rfl
    exact ⟨hload, by rw [hload]; rfl, by rw [hload]; rfl, by rw [hload]; rfl⟩
  · intro ini st e h1 h2 h3 h4
    unfold loadFromIniModel
    rw [if_neg h1, if_neg h2, if_neg h3, h4]

/-- Witness for claim C10 at concrete inputs: a configuration whose
broadcast IP fails the final validation is fully reset, while one
whose port string is invalid keeps the loaded MAC/IP. -/
theorem claim_C10_witness :
    loadFromIniModel ⟨"00-11-22-AA-BB-CC".toList, some ("299.0.0.1".toList), "9".toList⟩
        ⟨[], [], 0⟩ = (.InvalidBroadcastIp, ⟨[], [], 0⟩) ∧
    loadFromIniModel ⟨"00-11-22-AA-BB-CC".toList, some ("1.2.3.4".toList), "abc".toList⟩
        ⟨[], [], 0⟩ =
      (.InvalidPort, ⟨"00-11-22-AA-BB-CC".toList, "1.2.3.4".toList, 0⟩) := by
  constructor
  · have h := (claim_C10_reset_on_final_validation_failure.1
      ⟨"00-11-22-AA-BB-CC".toList, some ("299.0.0.1".toList), "9".toList⟩ ⟨[], [], 0⟩ 9
      (by decide) (by decide) (by decide) (by decide) (by decide)).1
    rw [h]; decide
  · have h := claim_C10_reset_on_final_validation_failure.2
      ⟨"00-11-22-AA-BB-CC".toList, some ("1.2.3.4".toList), "abc".toList⟩ ⟨[], [], 0⟩
      .InvalidPort (by decide) (by decide) (by decide) (by decide)
    rw [h]; decide

/-- Claim C7: with an empty configured MAC string the load fails
(`GetPrivateProfileStringW` returns 0) and `main` returns before any
network step: the trace holds no socket creation and no send.  And
inside `SendMagicPacket` itself, any socket creation is preceded by
the packet construction and the WinSock subsystem initialization. -/
theorem claim_C7_empty_mac_no_network :
    (∀ (ini : IniInput) (env : NetEnv), ini.macValue = [] →
      (mainModel ini env).1 ≠ .Success ∧
      NetEvent.socketCreate ∉ (mainModel ini env).2 ∧
      NetEvent.sendto ∉ (mainModel ini env).2) ∧
    (∀ (env : NetEnv) (mac ip : List Char) (port : Nat),
      NetEvent.socketCreate ∈ (sendMagicPacketModel env mac ip port).2 →
        NetEvent.buildPacket ∈
          eventsBefore .socketCreate (sendMagicPacketModel env mac ip port).2 ∧
        NetEvent.wsaStartup ∈
          eventsBefore .socketCreate (sendMagicPacketModel env mac ip port).2) := by
  constructor
  · intro ini env hm
    have hload : loadFromIniModel ini ⟨[], [], 0⟩ = (.FailedToReadMacAddress, ⟨[], [], 0⟩) := by
      unfold loadFromIniModel
      rw [if_pos hm]
    have hmain : mainModel ini env = (.FailedToReadMacAddress, []) := by
      unfold mainModel
      rw [hload]
      rfl
    rw [hmain]
    exact ⟨by decide, by decide, by decide⟩
  · intro env mac ip port h
    rcases env with ⟨w, so, b, cv, pt, sd⟩
    cases w <;> cases so <;> cases b <;> cases cv <;> cases pt <;> cases sd <;>
      simp only [sendMagicPacketModel, eventsBefore] at h ⊢ <;>
      revert h <;> decide

/-- Witness for claim C7 at a concrete empty-MAC configuration and a
concrete all-successful environment. -/
theorem claim_C7_witness :
    ((mainModel ⟨[], none, "9".toList⟩ ⟨true, true, true, true, true, true⟩).1 ≠ .Success ∧
      NetEvent.socketCreate ∉ (mainModel ⟨[], none, "9".toList⟩
        ⟨true, true, true, true, true, true⟩).2 ∧
      NetEvent.sendto ∉ (mainModel ⟨[], none, "9".toList⟩
        ⟨true, true, true, true, true, true⟩).2) ∧
    (NetEvent.buildPacket ∈ eventsBefore .socketCreate
        (sendMagicPacketModel ⟨true, true, true, true, true, true⟩ [] [] 9).2 ∧
      NetEvent.wsaStartup ∈ eventsBefore .socketCreate
        (sendMagicPacketModel ⟨true, true, true, true, true, true⟩ [] [] 9).2) :=
  ⟨claim_C7_empty_mac_no_network.1 ⟨[], none, "9".toList⟩
      ⟨true, true, true, true, true, true⟩ rfl,
    claim_C7_empty_mac_no_network.2 ⟨true, true, true, true, true, true⟩ [] [] 9 (by decide)⟩

/-- `splitDots` never returns the empty list of parts. -/
theorem splitDots_ne_nil (l : List Char) : ∃ p ps, splitDots l = p :: ps := by
  induction l with
  | nil => exact ⟨[], [], rfl⟩
  | cons c rest ih =>
    by_cases hc : c = '.'
    · exact ⟨[], splitDots rest, by simp [splitDots, hc]⟩
    · obtain ⟨p, ps, hp⟩ := ih
      exact ⟨c :: p, ps, by simp [splitDots, hc, hp]⟩

/-- A dot-free string is a single part. -/
theorem splitDots_no_dot (xs : List Char) (h : '.' ∉ xs) : splitDots xs = [xs] := by
  induction xs with
  | nil => rfl
  | cons x xs ih =>
    have hx : ¬x = '.' := fun he => h (he ▸ List.mem_cons_self x xs)
    have hxs : '.' ∉ xs := fun hm => h (List.mem_cons_of_mem x hm)
    simp [splitDots, hx, ih hxs]

/-- Splitting a dot-free prefix followed by a dot peels off that
prefix as the first part. -/
theorem splitDots_append_dot (xs rest : List Char) (h : '.' ∉ xs) :
    splitDots (xs ++ '.' :: rest) = xs :: splitDots rest := by
  induction xs with
  | nil => simp [splitDots]
  | cons x xs ih =>
    have hx : ¬x = '.' := fun he => h (he ▸ List.mem_cons_self x xs)
    have hxs : '.' ∉ xs := fun hm => h (List.mem_cons_of_mem x hm)
    simp [splitDots, hx, ih hxs]

/-- A successfully validated octet has decimal value at most 255. -/
theorem isValidateIpOctet_le_255 (p : List Char) (h : isValidateIpOctet p = .Success) :
    decVal p ≤ 255 := by
  unfold isValidateIpOctet at h
  split at h
  · exact nomatch h
  split at h
  · exact nomatch h
  split at h
  · exact nomatch h
  split at h
  · exact nomatch h
  · rename_i h4
    omega

/-- An octet of length at least 2 that starts with L'0' never
validates. -/
theorem isValidateIpOctet_leading_zero (c : Char) (rest : List Char) :
    isValidateIpOctet ('0' :: c :: rest) ≠ .Success := by
  intro h
  unfold isValidateIpOctet at h
  split at h
  · exact absurd h (by decide)
  split at h
  · exact absurd h (by decide)
  split at h
  · exact absurd h (by decide)
  · rename_i h3
    exact h3 ⟨by simp, rfl⟩

/-- The empty octet never validates. -/
theorem isValidateIpOctet_nil : isValidateIpOctet [] = .InvalidBroadcastIp := by decide

/-- Characterization of the IP scanning loop: starting with a dot-free
partial octet `acc` and `d` dots already counted, the loop succeeds
exactly when the dot-split of the remaining text (with `acc` glued to
its first part) contributes `4 - d` parts and every part validates. -/
theorem ipLoop_success_iff (s : List Char) :
    ∀ (acc : List Char) (d : Nat), '.' ∉ acc →
      (ipLoop s acc d = .Success ↔
        ((splitDots (acc ++ s)).length + d = 4 ∧
          ∀ p ∈ splitDots (acc ++ s), isValidateIpOctet p = .Success)) := by
  induction s with
  | nil =>
    intro acc d hacc
    rw [List.append_nil, splitDots_no_dot acc hacc]
    have hred : ipLoop [] acc d =
        (match isValidateIpOctet acc with
          | WolErrorCode.Success =>
            if 3 < d then WolErrorCode.InvalidBroadcastIp
            else if d = 3 then WolErrorCode.Success
            else WolErrorCode.InvalidBroadcastIp
          | e => e) := rfl
    rw [hred]
    rcases isValidateIpOctet_cases acc with h | h <;> simp only [h]
    · constructor
      · intro hS
        split at hS
        · exact absurd hS (by decide)
        split at hS
        · rename_i hd3
          refine ⟨by simp [hd3], ?_⟩
          intro p hp
          simp at hp
          rw [hp]
          exact h
        · exact absurd hS (by decide)
      · rintro ⟨h1, _⟩
        have hd : d = 3 := by simp at h1; omega
        simp [hd]
    · constructor
      · intro hS
        exact absurd hS (by decide)
      · rintro ⟨_, h2⟩
        have hx := h2 acc (by simp)
        rw [h] at hx
        exact absurd hx (by decide)
  | cons c rest ih =>
    intro acc d hacc
    by_cases hc : c = '.'
    · subst hc
      rw [splitDots_append_dot acc rest hacc]
      have hred : ipLoop ('.' :: rest) acc d =
          (match isValidateIpOctet acc with
            | WolErrorCode.Success =>
              if 3 < d + 1 then WolErrorCode.InvalidBroadcastIp
              else ipLoop rest [] (d + 1)
            | e => e) := rfl
      rw [hred]
      rcases isValidateIpOctet_cases acc with h | h <;> simp only [h]
      · by_cases h3 : 3 < d + 1
        · rw [if_pos h3]
          constructor
          · intro hS
            exact absurd hS (by decide)
          · rintro ⟨h1, _⟩
            obtain ⟨p, ps, hps⟩ := splitDots_ne_nil rest
            rw [hps] at h1
            simp at h1
            omega
        · rw [if_neg h3]
          rw [ih [] (d + 1) (by simp)]
          simp only [List.nil_append]
          constructor
          · rintro ⟨h1, h2⟩
            refine ⟨by simp at h1 ⊢; omega, ?_⟩
            intro p hp
            rcases List.mem_cons.mp hp with hpe | hp2
            · rw [hpe]; exact h
            · exact h2 p hp2
          · rintro ⟨h1, h2⟩
            exact ⟨by simp at h1 ⊢; omega,
              fun p hp => h2 p (List.mem_cons_of_mem _ hp)⟩
      · constructor
        · intro hS
          exact absurd hS (by decide)
        · rintro ⟨_, h2⟩
          have hx := h2 acc (by simp)
          rw [h] at hx
          exact absurd hx (by decide)
    · have hred : ipLoop (c :: rest) acc d = ipLoop rest (acc ++ [c]) d := by
        conv_lhs => rw [ipLoop]
        rw [if_neg hc]
      rw [hred]
      have hacc2 : '.' ∉ acc ++ [c] := by
        intro hm
        rcases List.mem_append.mp hm with hm1 | hm2
        · exact hacc hm1
        · simp at hm2; exact hc hm2.symm
      rw [ih (acc ++ [c]) d hacc2]
      rw [List.append_assoc]
      simp

/-- Characterization of `IsValidBroadcastIpAddress`: success is
equivalent to having exactly four dot-separated parts, each a valid
octet. -/
theorem isValidBroadcastIpAddress_success_iff (s : List Char) :
    isValidBroadcastIpAddress s = .Success ↔
      ((splitDots s).length = 4 ∧ ∀ p ∈ splitDots s, isValidateIpOctet p = .Success) := by
  have h := ipLoop_success_iff s [] 0 (by simp)
  simpa using h

/-- Canonical octet renderings contain no dot. -/
theorem canonOctet_no_dot : ∀ n, n < 256 → '.' ∉ canonOctet n := by decide

/-- Every canonical octet rendering of a value in 0..255 validates. -/
theorem canonOctet_valid : ∀ n, n < 256 → isValidateIpOctet (canonOctet n) = .Success := by
  decide

/-- Claim C3: every canonical decimal-dotted rendering of a 4-tuple in
[0,255] passes `IsValidBroadcastIpAddress`; any dot-split part whose
decimal value exceeds 255 makes validation fail, as do a part of
length > 1 starting with L'0', a split with other than exactly 4
parts (3 dots), and an empty part (consecutive, leading, or trailing
dots). -/
theorem claim_C3_ip_validation :
    (∀ a b c d : Nat, a ≤ 255 → b ≤ 255 → c ≤ 255 → d ≤ 255 →
      isValidBroadcastIpAddress (canonIp a b c d) = .Success) ∧
    (∀ (s p : List Char), p ∈ splitDots s → p.all isWDigit = true → 255 < decVal p →
      isValidBroadcastIpAddress s ≠ .Success) ∧
    (∀ (s p : List Char) (c : Char) (rest : List Char),
      p ∈ splitDots s → p = '0' :: c :: rest →
      isValidBroadcastIpAddress s ≠ .Success) ∧
    (∀ s : List Char, (splitDots s).length ≠ 4 → isValidBroadcastIpAddress s ≠ .Success) ∧
    (∀ s : List Char, [] ∈ splitDots s → isValidBroadcastIpAddress s ≠ .Success) := by
  refine ⟨?_, ?_, ?_, ?_, ?_⟩
  · intro a b c d ha hb hc hd
    rw [isValidBroadcastIpAddress_success_iff]
    have hna : '.' ∉ canonOctet a := canonOctet_no_dot a (by omega)
    have hnb : '.' ∉ canonOctet b := canonOctet_no_dot b (by omega)
    have hnc : '.' ∉ canonOctet c := canonOctet_no_dot c (by omega)
    have hnd : '.' ∉ canonOctet d := canonOctet_no_dot d (by omega)
    have hsplit : splitDots (canonIp a b c d) =
        [canonOctet a, canonOctet b, canonOctet c, canonOctet d] := by
      unfold canonIp
      rw [splitDots_append_dot _ _ hna, splitDots_append_dot _ _ hnb,
        splitDots_append_dot _ _ hnc, splitDots_no_dot _ hnd]
    rw [hsplit]
    refine ⟨by simp, ?_⟩
    intro p hp
    simp at hp
    rcases hp with rfl | rfl | rfl | rfl <;> exact canonOctet_valid _ (by omega)
  · intro s p hp _ hval hS
    rw [isValidBroadcastIpAddress_success_iff] at hS
    have hle := isValidateIpOctet_le_255 p (hS.2 p hp)
    omega
  · intro s p c rest hp hshape hS
    rw [isValidBroadcastIpAddress_success_iff] at hS
    have hcheck := hS.2 p hp
    rw [hshape] at hcheck
    exact isValidateIpOctet_leading_zero c rest hcheck
  · intro s hlen hS
    rw [isValidBroadcastIpAddress_success_iff] at hS
    exact hlen hS.1
  · intro s hmem hS
    rw [isValidBroadcastIpAddress_success_iff] at hS
    have hx := hS.2 [] hmem
    rw [isValidateIpOctet_nil] at hx
    exact absurd hx (by decide)

/-- Witness for claim C3 at concrete inputs: the canonical rendering
of (192, 168, 0, 255) passes, and the spec's failure examples fail. -/
theorem claim_C3_witness :
    isValidBroadcastIpAddress (canonIp 192 168 0 255) = .Success ∧
    canonIp 192 168 0 255 = ("192.168.0.255".toList) ∧
    isValidBroadcastIpAddress ("192.168.0.256".toList) ≠ .Success ∧
    isValidBroadcastIpAddress ("192.168.00.255".toList) ≠ .Success ∧
    isValidBroadcastIpAddress ("192.168.0".toList) ≠ .Success :=
  ⟨claim_C3_ip_validation.1 192 168 0 255 (by decide) (by decide) (by decide) (by decide),
    by decide,
    claim_C3_ip_validation.2.1 ("192.168.0.256".toList) ("256".toList)
      (by decide) (by decide) (by decide),
    claim_C3_ip_validation.2.2.1 ("192.168.00.255".toList) ("00".toList) '0' []
      (by decide) (by decide),
    claim_C3_ip_validation.2.2.2.1 ("192.168.0".toList) (by decide)⟩

/-- A hex digit's value is at most 15. -/
theorem hexVal_le (c : Char) : hexVal c ≤ 15 := by
  unfold hexVal
  split
  · rename_i h; omega
  split
  · rename_i h; omega
  split
  · rename_i h; omega
  · omega

/-- A `%x` conversion on two hex digits followed by a non-hex-digit
consumes exactly the two digits. -/
theorem scanHex_group (a b x : Char) (rest : List Char) (ha : isHexDigitW a = true)
    (hb : isHexDigitW b = true) (hx : isHexDigitW x = false) :
    scanHex (a :: b :: x :: rest) = some (16 * hexVal a + hexVal b, x :: rest) := by
  simp [scanHex, hexRun, ha, hb, hx]
  ring

/-- A `%x` conversion on two final hex digits consumes both. -/
theorem scanHex_group_end (a b : Char) (ha : isHexDigitW a = true)
    (hb : isHexDigitW b = true) :
    scanHex [a, b] = some (16 * hexVal a + hexVal b, []) := by
  simp [scanHex, hexRun, ha, hb]
  ring

set_option maxHeartbeats 2000000 in
/-- `ParseMacAddress` on a string in the validated `XX-XX-XX-XX-XX-XX`
format produces the six group values in written order (each group is
two hex digits, so its value is below 256 and the `std::byte` cast
truncates nothing). -/
theorem parseMacAddress_format (a0 a1 b0 b1 c0 c1 d0 d1 e0 e1 f0 f1 : Char)
    (ha0 : isHexDigitW a0 = true) (ha1 : isHexDigitW a1 = true)
    (hb0 : isHexDigitW b0 = true) (hb1 : isHexDigitW b1 = true)
    (hc0 : isHexDigitW c0 = true) (hc1 : isHexDigitW c1 = true)
    (hd0 : isHexDigitW d0 = true) (hd1 : isHexDigitW d1 = true)
    (he0 : isHexDigitW e0 = true) (he1 : isHexDigitW e1 = true)
    (hf0 : isHexDigitW f0 = true) (hf1 : isHexDigitW f1 = true) :
    parseMacAddress
        [a0, a1, '-', b0, b1, '-', c0, c1, '-', d0, d1, '-', e0, e1, '-', f0, f1] =
      some [16 * hexVal a0 + hexVal a1, 16 * hexVal b0 + hexVal b1,
        16 * hexVal c0 + hexVal c1, 16 * hexVal d0 + hexVal d1,
        16 * hexVal e0 + hexVal e1, 16 * hexVal f0 + hexVal f1] := by
  have hdash : isHexDigitW '-' = false := by decide
  have h1 := scanHex_group a0 a1 '-'
    [b0, b1, '-', c0, c1, '-', d0, d1, '-', e0, e1, '-', f0, f1] ha0 ha1 hdash
  have h2 := scanHex_group b0 b1 '-'
    [c0, c1, '-', d0, d1, '-', e0, e1, '-', f0, f1] hb0 hb1 hdash
  have h3 := scanHex_group c0 c1 '-' [d0, d1, '-', e0, e1, '-', f0, f1] hc0 hc1 hdash
  have h4 := scanHex_group d0 d1 '-' [e0, e1, '-', f0, f1] hd0 hd1 hdash
  have h5 := scanHex_group e0 e1 '-' [f0, f1] he0 he1 hdash
  have h6 := scanHex_group_end f0 f1 hf0 hf1
  have hm : ∀ x y : Nat, x ≤ 15 → y ≤ 15 → (16 * x + y) % 256 = 16 * x + y := by
    intro x y hx hy; omega
  simp [parseMacAddress, h1, h2, h3, h4, h5, h6, expectDash,
    hm _ _ (hexVal_le a0) (hexVal_le a1), hm _ _ (hexVal_le b0) (hexVal_le b1),
    hm _ _ (hexVal_le c0) (hexVal_le c1), hm _ _ (hexVal_le d0) (hexVal_le d1),
    hm _ _ (hexVal_le e0) (hexVal_le e1), hm _ _ (hexVal_le f0) (hexVal_le f1)]

/-- `getD` on a replicated list inside its bounds. -/
theorem getD_replicate_of_lt {α : Type} (n i : Nat) (a dflt : α) (h : i < n) :
    (List.replicate n a).getD i dflt = a := by
  induction n generalizing i with
  | zero => omega
  | succ n ih =>
    cases i with
    | zero => simp [List.replicate_succ]
    | succ i =>
      rw [List.replicate_succ, List.getD_cons_succ]
      exact ih i (by omega)

/-- Length of the 16-fold repetition block. -/
theorem flatten_replicate_length {α : Type} (n : Nat) (l : List α) :
    ((List.replicate n l).flatten).length = n * l.length := by
  induction n with
  | zero => simp
  | succ n ih =>
    rw [List.replicate_succ, List.flatten_cons, List.length_append, ih]
    ring

/-- Reading inside the `k`-th copy of the repetition block yields the
corresponding byte of the repeated list. -/
theorem flatten_replicate_getD (l : List Nat) (n : Nat) :
    ∀ k i : Nat, k < n → i < l.length →
      ((List.replicate n l).flatten).getD (l.length * k + i) 0 = l.getD i 0 := by
  induction n with
  | zero => intro k i hk; omega
  | succ n ih =>
    intro k i hk hi
    rw [List.replicate_succ, List.flatten_cons]
    cases k with
    | zero =>
      have hidx : l.length * 0 + i = i := by omega
      rw [hidx]
      exact List.getD_append l _ 0 i hi
    | succ k =>
      have hge : l.length ≤ l.length * (k + 1) + i := by
        rw [Nat.mul_succ]; omega
      rw [List.getD_append_right l _ 0 _ hge]
      have hidx : l.length * (k + 1) + i - l.length = l.length * k + i := by
        rw [Nat.mul_succ]; omega
      rw [hidx]
      exact ih k i (by omega) hi

/-- The magic packet of a 6-byte MAC is exactly 102 bytes long. -/
theorem createMagicPacket_length (b : List Nat) (hb : b.length = 6) :
    (createMagicPacket b).length = 102 := by
  unfold createMagicPacket
  rw [List.length_append, List.length_replicate, flatten_replicate_length, hb]

/-- Bytes 0..5 of the magic packet are the 0xFF synchronization
header. -/
theorem createMagicPacket_header (b : List Nat) (i : Nat) (hi : i < 6) :
    (createMagicPacket b).getD i 0 = 255 := by
  unfold createMagicPacket
  rw [List.getD_append _ _ _ _ (by simp; omega)]
  exact getD_replicate_of_lt 6 i 255 0 hi

/-- Bytes `6 + 6k + i` of the magic packet (`k < 16`, `i < 6`) are the
`i`-th MAC byte. -/
theorem createMagicPacket_repeat (b : List Nat) (hb : b.length = 6) (k i : Nat)
    (hk : k < 16) (hi : i < 6) :
    (createMagicPacket b).getD (6 + 6 * k + i) 0 = b.getD i 0 := by
  unfold createMagicPacket
  rw [List.getD_append_right _ _ _ _ (by simp; omega)]
  have hidx : 6 + 6 * k + i - (List.replicate 6 (255 : Nat)).length = b.length * k + i := by
    simp [hb]; omega
  rw [hidx]
  exact flatten_replicate_getD b 16 k i hk (by omega)

/-- Claim C1: for every MAC string in the validated
`XX-XX-XX-XX-XX-XX` format, parsing yields 6 bytes and the magic
packet built from them is exactly 102 bytes (no checksum or trailer),
with bytes 0..5 equal to 0xFF and, for every k in 0..15, bytes
6+6k..11+6k equal to the parsed MAC bytes verbatim. -/
theorem claim_C1_packet_roundtrip :
    ∀ s : List Char, macFormatB s = true →
      ∃ b : List Nat, parseMacAddress s = some b ∧ b.length = 6 ∧
        (createMagicPacket b).length = 102 ∧
        (∀ i, i < 6 → (createMagicPacket b).getD i 0 = 255) ∧
        (∀ k i, k < 16 → i < 6 →
          (createMagicPacket b).getD (6 + 6 * k + i) 0 = b.getD i 0) := by
  intro s hf
  obtain ⟨a0, a1, b0, b1, c0, c1, d0, d1, e0, e1, f0, f1, rfl, ha0, ha1, hb0, hb1,
    hc0, hc1, hd0, hd1, he0, he1, hf0, hf1⟩ := macFormat_shape s hf
  refine ⟨_, parseMacAddress_format a0 a1 b0 b1 c0 c1 d0 d1 e0 e1 f0 f1
    ha0 ha1 hb0 hb1 hc0 hc1 hd0 hd1 he0 he1 hf0 hf1, rfl, ?_, ?_, ?_⟩
  · exact createMagicPacket_length _ rfl
  · intro i hi
    exact createMagicPacket_header _ i hi
  · intro k i hk hi
    exact createMagicPacket_repeat _ (by rfl) k i hk hi

/-- Witness for claim C1 at the concrete MAC string
"A0-36-BC-BB-EB-CC". -/
theorem claim_C1_witness :
    ∃ b : List Nat, parseMacAddress ("A0-36-BC-BB-EB-CC".toList) = some b ∧ b.length = 6 ∧
      (createMagicPacket b).length = 102 ∧
      (∀ i, i < 6 → (createMagicPacket b).getD i 0 = 255) ∧
      (∀ k i, k < 16 → i < 6 →
        (createMagicPacket b).getD (6 + 6 * k + i) 0 = b.getD i 0) :=
  claim_C1_packet_roundtrip ("A0-36-BC-BB-EB-CC".toList) (by decide)

/-- Claim C8: parsing a MAC string in the validated format splits it
into 6 two-hex-digit groups and produces exactly 6 bytes, where byte
`i` is the value of the `i`-th group in left-to-right written order
(the characters at string positions `3i` and `3i+1`), each value in
0x00..0xFF. -/
theorem claim_C8_parse_address_order :
    ∀ s : List Char, macFormatB s = true →
      ∃ b : List Nat, parseMacAddress s = some b ∧ b.length = 6 ∧
        ∀ i, i < 6 →
          b.getD i 0 = 16 * hexVal (s.getD (3 * i) ' ') + hexVal (s.getD (3 * i + 1) ' ') ∧
          b.getD i 0 ≤ 255 := by
  intro s hf
  obtain ⟨a0, a1, b0, b1, c0, c1, d0, d1, e0, e1, f0, f1, rfl, ha0, ha1, hb0, hb1,
    hc0, hc1, hd0, hd1, he0, he1, hf0, hf1⟩ := macFormat_shape s hf
  refine ⟨_, parseMacAddress_format a0 a1 b0 b1 c0 c1 d0 d1 e0 e1 f0 f1
    ha0 ha1 hb0 hb1 hc0 hc1 hd0 hd1 he0 he1 hf0 hf1, rfl, ?_⟩
  intro i hi
  interval_cases i
  · exact ⟨rfl, by
      have h1 := hexVal_le a0; have h2 := hexVal_le a1
      show 16 * hexVal a0 + hexVal a1 ≤ 255; omega⟩
  · exact ⟨rfl, by
      have h1 := hexVal_le b0; have h2 := hexVal_le b1
      show 16 * hexVal b0 + hexVal b1 ≤ 255; omega⟩
  · exact ⟨rfl, by
      have h1 := hexVal_le c0; have h2 := hexVal_le c1
      show 16 * hexVal c0 + hexVal c1 ≤ 255; omega⟩
  · exact ⟨rfl, by
      have h1 := hexVal_le d0; have h2 := hexVal_le d1
      show 16 * hexVal d0 + hexVal d1 ≤ 255; omega⟩
  · exact ⟨rfl, by
      have h1 := hexVal_le e0; have h2 := hexVal_le e1
      show 16 * hexVal e0 + hexVal e1 ≤ 255; omega⟩
  · exact ⟨rfl, by
      have h1 := hexVal_le f0; have h2 := hexVal_le f1
      show 16 * hexVal f0 + hexVal f1 ≤ 255; omega⟩

/-- Witness for claim C8 at the concrete MAC string
"A0-36-BC-BB-EB-CC". -/
theorem claim_C8_witness :
    ∃ b : List Nat, parseMacAddress ("A0-36-BC-BB-EB-CC".toList) = some b ∧ b.length = 6 ∧
      ∀ i, i < 6 →
        b.getD i 0 = 16 * hexVal (("A0-36-BC-BB-EB-CC".toList).getD (3 * i) ' ') +
          hexVal (("A0-36-BC-BB-EB-CC".toList).getD (3 * i + 1) ' ') ∧
        b.getD i 0 ≤ 255 :=
  claim_C8_parse_address_order ("A0-36-BC-BB-EB-CC".toList) (by decide)

/-- A prefix taken by `takeWhile` satisfies the predicate
throughout. -/
theorem all_takeWhile {α : Type} (p : α → Bool) (l : List α) :
    (l.takeWhile p).all p = true := by
  induction l with
  | nil => rfl
  | cons x xs ih =>
    by_cases hx : p x
    · simp [List.takeWhile_cons, hx, ih]
    · simp [List.takeWhile_cons, hx]

/-- If the digit scan consumes the whole input, the input was all
digits. -/
theorem parseDecDigits_all_digits : ∀ (l : List Char) (acc k : Nat),
    (parseDecDigits l acc k).2.2 = [] → l.all isWDigit = true := by
  intro l
  induction l with
  | nil => intro acc k _; rfl
  | cons c rest ih =>
    intro acc k h
    unfold parseDecDigits at h
    split at h
    · rename_i hc
      rw [List.all_cons, hc]
      simp only [Bool.true_and]
      exact ih _ _ h
    · simp at h

/-- `wcstoul10` when the whitespace-stripped input is empty. -/
theorem wcstoul10_eq_nil (s : List Char) (ht : s.dropWhile isSpaceW = []) :
    wcstoul10 s = wcstoulCore s [] false := by
  unfold wcstoul10
  rw [ht]

/-- `wcstoul10` when the whitespace-stripped input starts with L'+'. -/
theorem wcstoul10_eq_plus (s r : List Char) (ht : s.dropWhile isSpaceW = '+' :: r) :
    wcstoul10 s = wcstoulCore s r false := by
  unfold wcstoul10
  rw [ht]
  rfl

/-- `wcstoul10` when the whitespace-stripped input starts with L'-'. -/
theorem wcstoul10_eq_minus (s r : List Char) (ht : s.dropWhile isSpaceW = '-' :: r) :
    wcstoul10 s = wcstoulCore s r true := by
  unfold wcstoul10
  rw [ht]
  rfl

/-- `wcstoul10` when the whitespace-stripped input starts with neither
sign. -/
theorem wcstoul10_eq_other (s : List Char) (c : Char) (r : List Char)
    (ht : s.dropWhile isSpaceW = c :: r) (hp : c ≠ '+') (hm : c ≠ '-') :
    wcstoul10 s = wcstoulCore s (c :: r) false := by
  unfold wcstoul10
  rw [ht]
  split
  · rename_i r2 heq
    injection heq with hq1 hq2
    exact absurd hq1 hp
  · rename_i r2 heq
    injection heq with hq1 hq2
    exact absurd hq1 hm
  · rfl

/-- If a `wcstoul` call converted something and left no remainder,
its digit part was a non-empty all-digit string. -/
theorem wcstoulCore_digits (orig digits : List Char) (neg : Bool)
    (hcons : (wcstoulCore orig digits neg).consumedDigits = true)
    (hrest : (wcstoulCore orig digits neg).rest = []) :
    digits ≠ [] ∧ digits.all isWDigit = true := by
  constructor
  · intro hd
    subst hd
    rw [show wcstoulCore orig [] neg = ⟨0, false, false, orig⟩ from rfl] at hcons
    simp at hcons
  · by_cases hk : (parseDecDigits digits 0 0).2.1 = 0
    · unfold wcstoulCore at hcons
      rw [if_pos hk] at hcons
      simp at hcons
    · unfold wcstoulCore at hrest
      rw [if_neg hk] at hrest
      by_cases hr : ULONG_MAX < (parseDecDigits digits 0 0).1
      · rw [if_pos hr] at hrest
        exact parseDecDigits_all_digits digits 0 0 hrest
      · rw [if_neg hr] at hrest
        cases neg
        · rw [if_neg (by decide)] at hrest
          exact parseDecDigits_all_digits digits 0 0 hrest
        · rw [if_pos (by decide)] at hrest
          exact parseDecDigits_all_digits digits 0 0 hrest

/-- Claim C4 (counterexample): the port block of `LoadFromIni` parses
with `wcstoul`, which skips leading `iswspace` characters and accepts
one optional sign, so the strings "+9" and " 9" — neither wholly
composed of decimal digits — are ACCEPTED as port 9, contrary to the
claim that any string with a sign or leading whitespace is rejected. -/
theorem claim_C4_counterexample :
    loadPort ("+9".toList) = .ok 9 ∧
    loadPort (" 9".toList) = .ok 9 ∧
    ("+9".toList).all isWDigit = false ∧
    (" 9".toList).all isWDigit = false := by
  exact ⟨by decide, by decide, by decide, by decide⟩

/-- Claim C4 (amended): the port validation still rejects empty input,
trailing garbage after the digits, and out-of-range values — every
accepted string is `[iswspace]* [+-]? digit+` with nothing after the
digits, and the accepted value lies in [1, 65535] — but `wcstoul`
semantics make it accept an optional sign and leading whitespace
before the digits.  Boundaries: "0" fails, "65535" succeeds, "65536"
fails, "9abc" fails. -/
theorem claim_C4_amended_port_validation :
    loadPort ("0".toList) = .error .InvalidPort ∧
    loadPort ("65535".toList) = .ok 65535 ∧
    loadPort ("65536".toList) = .error .InvalidPort ∧
    loadPort ("9abc".toList) = .error .InvalidPort ∧
    loadPort [] = .error .InvalidPort ∧
    (∀ (s : List Char) (p : Nat), loadPort s = .ok p →
      1 ≤ p ∧ p ≤ 65535 ∧
      ∃ ws sgn ds : List Char, s = ws ++ sgn ++ ds ∧ ws.all isSpaceW = true ∧
        (sgn = [] ∨ sgn = ['+'] ∨ sgn = ['-']) ∧ ds ≠ [] ∧ ds.all isWDigit = true) := by
  refine ⟨by decide, by decide, by decide, by decide, by decide, ?_⟩
  intro s p h
  unfold loadPort at h
  split at h
  · exact Except.noConfusion h
  split at h
  · exact Except.noConfusion h
  split at h
  · exact Except.noConfusion h
  split at h
  · exact Except.noConfusion h
  rename_i h1 h2 h3 h4
  injection h with hpv
  push_neg at h3 h4
  have hcons : (wcstoul10 s).consumedDigits = true := by
    rcases h3 with ⟨h3a, _⟩
    revert h3a
    cases (wcstoul10 s).consumedDigits <;> simp
  have hrest : (wcstoul10 s).rest = [] := h3.2
  refine ⟨by omega, by omega, ?_⟩
  have hsplit : s.takeWhile isSpaceW ++ s.dropWhile isSpaceW = s :=
    List.takeWhile_append_dropWhile isSpaceW s
  rcases ht : s.dropWhile isSpaceW with _ | ⟨c, r⟩
  · -- nothing after the whitespace: wcstoul converts nothing
    have hw := wcstoul10_eq_nil s ht
    rw [hw] at hcons
    rw [show wcstoulCore s [] false = ⟨0, false, false, s⟩ from rfl] at hcons
    simp at hcons
  · by_cases hplus : c = '+'
    · subst hplus
      have hw := wcstoul10_eq_plus s r ht
      rw [hw] at hcons hrest
      obtain ⟨hne, hall⟩ := wcstoulCore_digits s r false hcons hrest
      refine ⟨s.takeWhile isSpaceW, ['+'], r, ?_, all_takeWhile _ _,
        Or.inr (Or.inl rfl), hne, hall⟩
      rw [List.append_assoc]
      rw [show ['+'] ++ r = '+' :: r from rfl]
      rw [← ht]
      exact hsplit.symm
    · by_cases hminus : c = '-'
      · subst hminus
        have hw := wcstoul10_eq_minus s r ht
        rw [hw] at hcons hrest
        obtain ⟨hne, hall⟩ := wcstoulCore_digits s r true hcons hrest
        refine ⟨s.takeWhile isSpaceW, ['-'], r, ?_, all_takeWhile _ _,
          Or.inr (Or.inr rfl), hne, hall⟩
        rw [List.append_assoc]
        rw [show ['-'] ++ r = '-' :: r from rfl]
        rw [← ht]
        exact hsplit.symm
      · have hw := wcstoul10_eq_other s c r ht hplus hminus
        rw [hw] at hcons hrest
        obtain ⟨hne, hall⟩ := wcstoulCore_digits s (c :: r) false hcons hrest
        refine ⟨s.takeWhile isSpaceW, [], c :: r, ?_, all_takeWhile _ _,
          Or.inl rfl, hne, hall⟩
        rw [List.append_nil, ← ht]
        exact hsplit.symm

/-- Witness for claim C4's universally quantified conjunct at the
concrete accepted string "65535". -/
theorem claim_C4_witness :
    1 ≤ 65535 ∧ 65535 ≤ 65535 ∧
    ∃ ws sgn ds : List Char, ("65535".toList) = ws ++ sgn ++ ds ∧
      ws.all isSpaceW = true ∧ (sgn = [] ∨ sgn = ['+'] ∨ sgn = ['-']) ∧
      ds ≠ [] ∧ ds.all isWDigit = true :=
  claim_C4_amended_port_validation.2.2.2.2.2 ("65535".toList) 65535 (by decide)
